import Mathlib

/-!
Verification of the Project Eagle installer (two Python source variants:
`Untitled-1.py` and the unnamed variant `part_000`) against its
natural-language specification.  The relevant pieces of the program are
shallowly embedded as executable Lean definitions: the target-folder
validator (`SelectPage.verify`), the dependency scanner
(`DependencyPage.check_deps`), the streaming downloader and extractor
(`extract_with_7zr`), the merge step and the phase/cleanup discipline of
`InstallPage._worker`.
-/

namespace Eagle

/-! ## Basic filesystem model

A directory listing is modelled as an association list from entry names to
entry kinds (for the flat checks of `SelectPage.verify`), and a recursive
tree `FsNode` (for the merge step, where file contents matter). -/

inductive EntryKind where
  | file
  | dir
deriving DecidableEq, Repr

/-- A flat directory: names paired with whether each entry is a file or a
subdirectory.  `os.listdir` never repeats a name, but none of the flat-model
lemmas need that. -/
abbrev Dir := List (String × EntryKind)

/-- `os.path.isfile(os.path.join(p, name))` on the modelled directory. -/
def isfile (d : Dir) (name : String) : Bool :=
  d.any (fun e => e.1 = name && e.2 = EntryKind.file)

/-- `os.path.isdir(os.path.join(p, name))` on the modelled directory. -/
def isdir (d : Dir) (name : String) : Bool :=
  d.any (fun e => e.1 = name && e.2 = EntryKind.dir)

/-- Python `item.endswith('/')`. -/
def endsWithSlash (s : String) : Bool :=
  match s.data.getLast? with
  | some c => c = '/'
  | none => false

/-- Python `item.rstrip('/')`: drop every trailing `'/'`. -/
def rstripSlash (s : String) : String :=
  ⟨((s.data.reverse.dropWhile (fun c => c = '/')).reverse)⟩

/-! ## Configuration constants (from the `CONFIGURATION` section of both
variants; identical in the two files). -/

def EXPECTED_EXECUTABLE : String := "gta_sa.exe"

def BLACKLISTED_FILES : List String :=
  ["modloader.asi", "d3d9.dll", "$fastman92limitAdjuster.asi"]

/-! ## `SelectPage.verify` — the target validator

Embeds the denylist loop of `SelectPage.verify` (identical in both
variants):

    for item in BLACKLISTED_FILES:
        full_path = os.path.join(p, item)
        if item.endswith('/'):
            if os.path.isdir(full_path.rstrip('/')):
                found_mods.append(item.rstrip('/'))
        elif os.path.isfile(full_path):
            found_mods.append(item)
-/

/-- One iteration of the denylist loop: the name appended for `item`, if any. -/
def checkItem (d : Dir) (item : String) : Option String :=
  if endsWithSlash item then
    if isdir d (rstripSlash item) then some (rstripSlash item) else none
  else if isfile d item then some item else none

/-- The `found_mods` list collected by the loop, over an arbitrary denylist. -/
def foundModsOver (denylist : List String) (d : Dir) : List String :=
  denylist.filterMap (checkItem d)

/-- The `found_mods` list for the program's actual denylist. -/
def foundMods (d : Dir) : List String :=
  foundModsOver BLACKLISTED_FILES d

/-- Outcome of `SelectPage.verify` before the dependency scan. -/
inductive VerifyResult where
  | missingExe
  | modified (hits : List String)
  | verified
deriving DecidableEq, Repr

/-- Full model of the validation part of `SelectPage.verify`, over an
arbitrary denylist.  Beyond the result it records (a) the list of denylist
entries the loop actually probed (empty when the function returned before
the loop) and (b) the accepted install-target path after the call
(`self.ctrl.game_path`, which the code assigns only on the success path). -/
structure VerifyOut where
  result : VerifyResult
  probedDenylist : List String
  gamePathAfter : String
deriving DecidableEq, Repr

def verifyOver (denylist : List String) (d : Dir) (p gamePath : String) :
    VerifyOut :=
  if ¬ isfile d EXPECTED_EXECUTABLE then
    -- `if not os.path.isfile(exe_path): messagebox.showerror(...); return`
    ⟨.missingExe, [], gamePath⟩
  else
    let found := foundModsOver denylist d
    if found.isEmpty then
      -- success path: `self.ctrl.game_path = p`
      ⟨.verified, denylist, p⟩
    else
      -- `if found_mods: messagebox.showerror(...); return`
      ⟨.modified found, denylist, gamePath⟩

def verify (d : Dir) (p gamePath : String) : VerifyOut :=
  verifyOver BLACKLISTED_FILES d p gamePath

/-- Spec-level description of a reported denylist match: either a
non-slash denylist entry present as a file, or the slash-stripped name of a
slash-terminated denylist entry present as a directory. -/
def IsExpectedMatch (denylist : List String) (d : Dir) (s : String) : Prop :=
  (s ∈ denylist ∧ endsWithSlash s = false ∧ isfile d s = true) ∨
  (∃ item ∈ denylist, endsWithSlash item = true ∧ s = rstripSlash item ∧
    isdir d s = true)

/-! ## Dependency scanning — `DependencyPage.check_deps` / `SelectPage.verify`

Both variants run, over the fixed `DEPENDENCIES` dictionary,

    missing = []
    for dep, fn in ...:
        try:
            if not fn():
                missing.append(dep)
        except Exception:
            missing.append(dep)

A probe is an opaque zero-argument boolean check that may raise; it is
modelled by its outcome. -/

inductive ProbeResult where
  | ok (b : Bool)
  | raises
deriving DecidableEq, Repr

structure DepSpec where
  name : String
  probe : ProbeResult
deriving DecidableEq, Repr

/-- The `missing` list built by the scan loop. -/
def scanDeps (specs : List DepSpec) : List String :=
  specs.filterMap (fun s =>
    match s.probe with
    | .ok true => none
    | .ok false => some s.name
    | .raises => some s.name)

/-! ## Fetcher — the streaming download loop of `InstallPage._worker`

Both variants run

    total = int(r.headers.get("Content-Length", 0))
    dl = 0
    with open(temp, "wb") as f:
        for chunk in r.iter_content(64*1024):
            if not chunk: continue
            f.write(chunk)
            dl += len(chunk)
            self.progress = (dl/total if total else 0) * 0.5

The body stream is modelled by the list of chunk sizes `iter_content`
yields (a falsy chunk is an empty one, size 0).  `total = 0` models a
missing `Content-Length` header. -/

/-- Cumulative byte counts `dl` after each written chunk, starting from
`acc`. -/
def partialSums (acc : Nat) : List Nat → List Nat
  | [] => []
  | c :: cs => (acc + c) :: partialSums (acc + c) cs

/-- The fetcher-level fraction stored on one loop iteration:
`dl/total if total else 0`. -/
def fetchFrac (total dl : Nat) : ℚ :=
  if total = 0 then 0 else (dl : ℚ) / (total : ℚ)

/-- The sequence of fractions the download loop reports, one per nonempty
chunk (the worker then scales each by `0.5` into the overall bar). -/
def fetchFracs (total : Nat) (chunks : List Nat) : List ℚ :=
  (partialSums 0 (chunks.filter (fun c => c ≠ 0))).map (fetchFrac total)

/-! ## Extractor — `extract_with_7zr`

Both variants parse each stdout line with `re.search(r'(\d+)%', line)` and,
on a match, call `progress_callback(int(group(1))/100.0, line.strip())`.

`pctAux` models that regex search: it scans the characters left to right,
carrying the value of the digit run ending just before the current
position, and succeeds at the first `'%'` immediately preceded by a digit;
the captured group is then exactly that maximal digit run (the regex
backtracking inside `\d+` can never succeed, since a shortened run would
require a digit to equal `'%'`). -/

def pctAux : List Char → Option Nat → Option Nat
  | [], _ => none
  | c :: cs, cur =>
    if c.isDigit then
      pctAux cs (some (cur.getD 0 * 10 + (c.toNat - 48)))
    else if c = '%' then
      match cur with
      | some n => some n
      | none => pctAux cs none
    else pctAux cs none

/-- `re.search(r'(\d+)%', line)`, returning `int` of the captured group. -/
def pctSearch (line : String) : Option Nat :=
  pctAux line.data none

/-- Python `line.strip()`: remove leading and trailing whitespace. -/
def pyStrip (s : String) : String :=
  ⟨((s.data.dropWhile Char.isWhitespace).reverse.dropWhile
      Char.isWhitespace).reverse⟩

/-- The sequence of `progress_callback` invocations of `Untitled-1.py`'s
`extract_with_7zr` for a given sequence of subprocess stdout lines:

    for line in proc.stdout:
        if pct := re.search(r'(\d+)%', line):
            p = int(pct.group(1)) / 100.0
            if progress_callback:
                progress_callback(p, line.strip())
-/
def extractEventsV1 (lines : List String) : List (ℚ × String) :=
  lines.filterMap (fun line =>
    (pctSearch line).map (fun n : Nat => ((n : ℚ) / 100, pyStrip line)))

/-- The same callback sequence for the `part_000` variant, whose loop body
is

    for line in proc.stdout:
        if pct := re.search(r'(\d+)%', line):
            p = int(pct.group(1)) / 100.0
            if progress_callback:
                progress_callback(p, line.strip())

(the surrounding `try` and the separate stderr pipe do not touch the
callback sequence). -/
def extractEventsV2 (lines : List String) : List (ℚ × String) :=
  lines.filterMap (fun line =>
    (pctSearch line).map (fun n : Nat => ((n : ℚ) / 100, pyStrip line)))

/-- Exit handling of `Untitled-1.py`'s `extract_with_7zr` (stderr is merged
into stdout by `stderr=subprocess.STDOUT`):

    proc.wait()
    if proc.returncode != 0:
        raise RuntimeError(f"7zr failed (code {proc.returncode})")

The raised message is the carried error value. -/
def extractResultV1 (exitCode : Nat) : Except String Unit :=
  if exitCode ≠ 0 then
    .error ("7zr failed (code " ++ toString exitCode ++ ")")
  else .ok ()

/-- Exit handling of `part_000`'s `extract_with_7zr`:

    proc.wait()
    if proc.returncode != 0:
        error_output = proc.stderr.read() if proc.stderr else ""
        raise RuntimeError(f"7zr failed (code {proc.returncode}): {error_output}")
    ...
    except Exception as e:
        raise RuntimeError(f"Extraction failed: {str(e)}")

so the escaping message wraps the inner one. -/
def extractResultV2 (exitCode : Nat) (stderrOut : String) :
    Except String Unit :=
  if exitCode ≠ 0 then
    .error ("Extraction failed: 7zr failed (code " ++ toString exitCode ++
      "): " ++ stderrOut)
  else .ok ()

/-! ## Merger — the merge step of `Untitled-1.py`'s `InstallPage._worker`

    contents = os.listdir(tmpdir)
    if len(contents) == 1 and os.path.isdir(os.path.join(tmpdir, contents[0])):
        root_folder = os.path.join(tmpdir, contents[0])
        for name in os.listdir(root_folder):
            src = os.path.join(root_folder, name)
            dst = os.path.join(self.ctrl.game_path, name)
            if os.path.exists(dst):
                if os.path.isdir(dst): shutil.rmtree(dst)
                else: os.remove(dst)
            shutil.move(src, dst)
    else:
        self.log("Warning: Unexpected archive structure")
        raise RuntimeError("Archive does not have the expected root folder structure")

File contents matter here ("byte for byte"), so directories are recursive
trees whose leaves carry bytes. -/

inductive FsNode where
  | file (content : List Nat)
  | dir (children : List (String × FsNode))

/-- Top-level contents of a directory in the recursive model. -/
abbrev Entries := List (String × FsNode)

/-- `os.listdir` order is the association-list order; an entry's node is the
first (and, with distinct names, only) binding. -/
def lookupEntry (es : Entries) (name : String) : Option FsNode :=
  match es with
  | [] => none
  | e :: rest => if e.1 = name then some e.2 else lookupEntry rest name

/-- One merge-loop iteration: delete any existing `dst` (recursively for a
directory), then `shutil.move(src, dst)`. -/
def moveInto (target : Entries) (name : String) (node : FsNode) : Entries :=
  (target.filter (fun e => e.1 ≠ name)) ++ [(name, node)]

inductive MergeError where
  | unexpectedArchiveLayout
deriving DecidableEq, Repr

/-- Result of the merge step: the raised error or success, the names moved
into the game folder (in loop order), and the game folder's contents
afterwards. -/
structure MergeOut where
  result : Except MergeError Unit
  moves : List String
  target : Entries

/-- The shape test `len(contents) == 1 and os.path.isdir(...)`. -/
def isSingleTopDir : Entries → Bool
  | [(_, FsNode.dir _)] => true
  | _ => false

/-- The merge step, on the extracted `tmpdir` contents and the game folder's
contents.  The `else` branch raises before the loop runs, so it performs no
moves and leaves the target untouched. -/
def mergeRun (contents : Entries) (target : Entries) : MergeOut :=
  match contents with
  | [(_, FsNode.dir children)] =>
    ⟨.ok (), children.map (fun c => c.1),
      children.foldl (fun t c => moveInto t c.1 c.2) target⟩
  | _ => ⟨.error .unexpectedArchiveLayout, [], target⟩

/-! ## `InstallPage._worker` — phases and cleanup

The worker's observable control flow is a function of: the precondition
flags, whether the streamed download succeeds, the extractor subprocess's
exit code, and (for `Untitled-1.py`) the extracted layout.  The phase values
assigned to `self.phase` during the run are recorded in order ("installing"
is the code's name for the spec's extracting/merging phase, "error" for the
spec's `failed`, "complete" for its terminal success).

Cleanup: both variants end with a `finally` block that removes the scratch
archive — `Untitled-1.py` with `try: os.remove(temp) except: pass`,
`part_000` with `if os.path.exists(temp): os.remove(temp)` — so with
`os.remove` deleting an existing file, the archive does not exist after the
worker on any exit path. -/

inductive Phase where
  | waiting
  | downloading
  | installing
  | complete
  | error
deriving DecidableEq, Repr

structure WorkerEnv where
  depsOk : Bool
  gamePath : String
  downloadOk : Bool
  extractExit : Nat
  contents : Entries

structure WorkerOut where
  phases : List Phase
  tempExists : Bool
  installOk : Bool

/-- The body of `Untitled-1.py`'s `_worker` up to (not including) the
`finally` block: the assigned phases, whether the scratch archive file
exists when the `finally` block starts, and the final `install_ok` flag.
A failed download may or may not have created a partial file; `partialFile`
carries that choice. -/
def workerBodyV1 (env : WorkerEnv) (partialFile : Bool) : WorkerOut :=
  if env.depsOk = false then ⟨[], false, false⟩
  else if env.gamePath = "" then ⟨[], false, false⟩
  else if env.downloadOk = false then
    ⟨[Phase.downloading, Phase.error], partialFile, false⟩
  else if env.extractExit ≠ 0 then
    ⟨[Phase.downloading, Phase.installing, Phase.error], true, false⟩
  else if isSingleTopDir env.contents then
    ⟨[Phase.downloading, Phase.installing, Phase.complete], true, true⟩
  else
    ⟨[Phase.downloading, Phase.installing, Phase.error], true, false⟩

/-- The `finally` block of `Untitled-1.py`'s `_worker`: `os.remove(temp)`
deletes the file when it exists, and the bare `except: pass` swallows the
error when it does not (including the `NameError` of the early-return paths,
where `temp` was never assigned). -/
def workerV1 (env : WorkerEnv) (partialFile : Bool) : WorkerOut :=
  let body := workerBodyV1 env partialFile
  ⟨body.phases, false, body.installOk⟩

/-- The body of `part_000`'s `_worker` before its `finally` block.  That
variant extracts straight into the game folder (no merge step), so the
layout never matters; after a successful download it re-checks
`os.path.exists(temp)` before extracting. -/
def workerBodyV2 (env : WorkerEnv) (partialFile : Bool) : WorkerOut :=
  if env.depsOk = false then ⟨[], false, false⟩
  else if env.gamePath = "" then ⟨[], false, false⟩
  else if env.downloadOk = false then
    ⟨[Phase.downloading, Phase.error], partialFile, false⟩
  else if env.extractExit ≠ 0 then
    ⟨[Phase.downloading, Phase.installing, Phase.error], true, false⟩
  else
    ⟨[Phase.downloading, Phase.installing, Phase.complete], true, true⟩

/-- The `finally` block of `part_000`'s `_worker`:
`if os.path.exists(temp): os.remove(temp)`. -/
def workerV2 (env : WorkerEnv) (partialFile : Bool) : WorkerOut :=
  let body := workerBodyV2 env partialFile
  ⟨body.phases, false, body.installOk⟩

/-! ## Helper lemmas -/

/-- Membership in the collected `found_mods` list coincides with the
spec-level description of a denylist match. -/
lemma mem_foundModsOver {denylist : List String} {d : Dir} {s : String} :
    s ∈ foundModsOver denylist d ↔ IsExpectedMatch denylist d s := by
  unfold foundModsOver IsExpectedMatch
  rw [List.mem_filterMap]
  constructor
  · rintro ⟨item, hitem, hchk⟩
    unfold checkItem at hchk
    by_cases hslash : endsWithSlash item
    · simp only [hslash, if_true] at hchk
      by_cases hdir : isdir d (rstripSlash item)
      · simp only [hdir, if_true, Option.some.injEq] at hchk
        exact Or.inr ⟨item, hitem, hslash, hchk.symm, by rw [hchk] at hdir; exact hdir⟩
      · simp [hdir] at hchk
    · simp only [hslash, if_false, Bool.false_eq_true] at hchk
      by_cases hfile : isfile d item
      · simp only [hfile, if_true, Option.some.injEq] at hchk
        subst hchk
        exact Or.inl ⟨hitem, by simpa using hslash, hfile⟩
      · simp [hfile] at hchk
  · rintro (⟨hmem, hslash, hfile⟩ | ⟨item, hitem, hslash, rfl, hdir⟩)
    · exact ⟨s, hmem, by unfold checkItem; simp [hslash, hfile]⟩
    · exact ⟨item, hitem, by unfold checkItem; simp [hslash, hdir]⟩

/-! ## C2 -/

/-- C2: for every target directory containing the marker executable
`gta_sa.exe`, `SelectPage.verify` reports the set of all denylisted
filenames/directories present under the target — membership in the
collected match list coincides with being a present denylisted entry
(order-independent set equality), and the result is `modified` with exactly
that list whenever it is nonempty (`verified` when empty). -/
theorem verify_reports_all_denylist_matches (denylist : List String) (d : Dir)
    (p gp : String) (hexe : isfile d EXPECTED_EXECUTABLE = true) :
    (∀ s, s ∈ foundModsOver denylist d ↔ IsExpectedMatch denylist d s) ∧
    (verifyOver denylist d p gp).result =
      (if (foundModsOver denylist d).isEmpty then VerifyResult.verified
       else VerifyResult.modified (foundModsOver denylist d)) := by
  refine ⟨fun s => mem_foundModsOver, ?_⟩
  unfold verifyOver
  simp only [hexe, not_true_eq_false, if_false]
  by_cases h : (foundModsOver denylist d).isEmpty <;> simp [h]

/-- Witness for C2 at a concrete directory holding the marker plus two
denylisted entries: both are reported. -/
theorem verify_reports_all_denylist_matches_witness :
    ("modloader.asi" ∈ foundModsOver BLACKLISTED_FILES
        [("gta_sa.exe", EntryKind.file), ("modloader.asi", EntryKind.file),
         ("d3d9.dll", EntryKind.file)] ↔
      IsExpectedMatch BLACKLISTED_FILES
        [("gta_sa.exe", EntryKind.file), ("modloader.asi", EntryKind.file),
         ("d3d9.dll", EntryKind.file)] "modloader.asi") ∧
    (verifyOver BLACKLISTED_FILES
        [("gta_sa.exe", EntryKind.file), ("modloader.asi", EntryKind.file),
         ("d3d9.dll", EntryKind.file)] "C:/Games/GTA" "").result =
      VerifyResult.modified ["modloader.asi", "d3d9.dll"] := by
  have h := verify_reports_all_denylist_matches BLACKLISTED_FILES
    [("gta_sa.exe", EntryKind.file), ("modloader.asi", EntryKind.file),
     ("d3d9.dll", EntryKind.file)] "C:/Games/GTA" "" (by decide)
  exact ⟨h.1 "modloader.asi", h.2⟩

/-! ## C9 -/

/-- C9: when the marker executable is absent, `SelectPage.verify` returns
the missing-executable error having probed none of the denylist (so no
denylist matches are reported even if denylisted entries exist), and on
every failing validation — missing marker or denylist hit — the accepted
install-target path `self.ctrl.game_path` is left unchanged. -/
theorem verify_missing_marker_short_circuits (denylist : List String)
    (d : Dir) (p gp : String) (h : isfile d EXPECTED_EXECUTABLE = false) :
    (verifyOver denylist d p gp).result = VerifyResult.missingExe ∧
    (verifyOver denylist d p gp).probedDenylist = [] ∧
    (verifyOver denylist d p gp).gamePathAfter = gp ∧
    (∀ (d' : Dir) (p' gp' : String),
      (verifyOver denylist d' p' gp').result ≠ VerifyResult.verified →
      (verifyOver denylist d' p' gp').gamePathAfter = gp') := by
  refine ⟨?_, ?_, ?_, ?_⟩
  · unfold verifyOver; simp [h]
  · unfold verifyOver; simp [h]
  · unfold verifyOver; simp [h]
  · intro d' p' gp' hres
    unfold verifyOver at hres ⊢
    by_cases h' : isfile d' EXPECTED_EXECUTABLE
    · simp only [h', not_true_eq_false, if_false] at hres ⊢
      by_cases hf : (foundModsOver denylist d').isEmpty
      · simp [hf] at hres
      · simp [hf]
    · simp [h']

/-- Witness for C9: a directory holding a denylisted file but no marker is
rejected as `missingExe`, without reporting the denylist hit, and the stored
path stays put. -/
theorem verify_missing_marker_short_circuits_witness :
    (verifyOver BLACKLISTED_FILES [("modloader.asi", EntryKind.file)]
      "C:/Games/GTA" "C:/old").result = VerifyResult.missingExe ∧
    (verifyOver BLACKLISTED_FILES [("modloader.asi", EntryKind.file)]
      "C:/Games/GTA" "C:/old").probedDenylist = [] ∧
    (verifyOver BLACKLISTED_FILES [("modloader.asi", EntryKind.file)]
      "C:/Games/GTA" "C:/old").gamePathAfter = "C:/old" := by
  have h := verify_missing_marker_short_circuits BLACKLISTED_FILES
    [("modloader.asi", EntryKind.file)] "C:/Games/GTA" "C:/old" (by decide)
  exact ⟨h.1, h.2.1, h.2.2.1⟩

/-! ## C8 -/

/-- C8: a probe that raises an unexpected error is treated exactly like a
"not present" result — its prerequisite's name lands in the `missing` list —
and the scan continues over all remaining probes: every spec whose probe is
not a clean `True` is reported, and nothing else is. -/
theorem scan_treats_raise_as_missing (specs : List DepSpec) (s : DepSpec)
    (hs : s ∈ specs) (hraises : s.probe = ProbeResult.raises) :
    s.name ∈ scanDeps specs ∧
    (∀ t ∈ specs, t.probe ≠ ProbeResult.ok true → t.name ∈ scanDeps specs) ∧
    (∀ n ∈ scanDeps specs, ∃ t ∈ specs,
      t.name = n ∧ t.probe ≠ ProbeResult.ok true) := by
  have key : ∀ t ∈ specs, t.probe ≠ ProbeResult.ok true →
      t.name ∈ scanDeps specs := by
    intro t ht hprobe
    unfold scanDeps
    rw [List.mem_filterMap]
    refine ⟨t, ht, ?_⟩
    match hp : t.probe with
    | .ok true => exact absurd hp hprobe
    | .ok false => rfl
    | .raises => rfl
  refine ⟨key s hs (by simp [hraises]), key, ?_⟩
  intro n hn
  unfold scanDeps at hn
  rw [List.mem_filterMap] at hn
  obtain ⟨t, ht, heq⟩ := hn
  refine ⟨t, ht, ?_, ?_⟩
  · match hp : t.probe with
    | .ok true => rw [hp] at heq; exact absurd heq (by simp)
    | .ok false => rw [hp] at heq; simpa using heq
    | .raises => rw [hp] at heq; simpa using heq
  · match hp : t.probe with
    | .ok true => rw [hp] at heq; exact absurd heq (by simp)
    | .ok false => simp [hp]
    | .raises => simp [hp]

/-- Witness for C8 with the program's three prerequisite names: the middle
probe raises, and all three checks still run — the raiser and the failing
probe are both reported, the passing one is not. -/
theorem scan_treats_raise_as_missing_witness :
    ".NET Framework" ∈ scanDeps
      [⟨"DirectX Jun2010", ProbeResult.ok true⟩,
       ⟨".NET Framework", ProbeResult.raises⟩,
       ⟨"VC++ 2015-2022 (x86)", ProbeResult.ok false⟩] :=
  (scan_treats_raise_as_missing
    [⟨"DirectX Jun2010", ProbeResult.ok true⟩,
     ⟨".NET Framework", ProbeResult.raises⟩,
     ⟨"VC++ 2015-2022 (x86)", ProbeResult.ok false⟩]
    ⟨".NET Framework", ProbeResult.raises⟩ (by simp) rfl).1

/-! ## Fetcher lemmas and C5 -/

lemma mem_partialSums_bounds {l : List Nat} {acc x : Nat}
    (hx : x ∈ partialSums acc l) : acc ≤ x ∧ x ≤ acc + l.sum := by
  induction l generalizing acc with
  | nil => simp [partialSums] at hx
  | cons c cs ih =>
    rw [partialSums, List.mem_cons] at hx
    rw [List.sum_cons]
    rcases hx with rfl | hx
    · omega
    · have h := ih hx
      omega

lemma chain'_partialSums (l : List Nat) (acc : Nat) :
    List.Chain' (· ≤ ·) (partialSums acc l) := by
  induction l generalizing acc with
  | nil => simp [partialSums]
  | cons c cs ih =>
    rw [partialSums]
    refine List.chain'_cons'.mpr ⟨?_, ih (acc + c)⟩
    intro y hy
    cases cs with
    | nil => simp [partialSums] at hy
    | cons c' cs' =>
      rw [partialSums] at hy
      simp only [List.head?_cons, Option.mem_def, Option.some.injEq] at hy
      omega

lemma sum_filter_le_sum (l : List Nat) :
    (l.filter (fun c => c ≠ 0)).sum ≤ l.sum :=
  List.Sublist.sum_le_sum (List.filter_sublist l) (fun a _ => Nat.zero_le a)

/-- C5: the progress fractions the download loop stores (before the
worker's `* 0.5` phase weighting) form a non-decreasing sequence; when the
stream fits the announced `Content-Length` every fraction lies in `[0, 1]`;
each reported value is exactly `bytes_downloaded / content_length` when a
length is announced; and with no announced length every reported value is
`0`. -/
theorem fetch_progress_monotone_bounded (total : Nat) (chunks : List Nat) :
    List.Chain' (· ≤ ·) (fetchFracs total chunks) ∧
    (chunks.sum ≤ total → ∀ f ∈ fetchFracs total chunks, 0 ≤ f ∧ f ≤ 1) ∧
    (total ≠ 0 → fetchFracs total chunks =
      (partialSums 0 (chunks.filter (fun c => c ≠ 0))).map
        (fun dl : Nat => (dl : ℚ) / (total : ℚ))) ∧
    (total = 0 → ∀ f ∈ fetchFracs total chunks, f = 0) := by
  refine ⟨?_, ?_, ?_, ?_⟩
  · unfold fetchFracs
    rw [List.chain'_map]
    refine (chain'_partialSums _ 0).imp ?_
    intro a b hab
    unfold fetchFrac
    by_cases ht : total = 0
    · simp [ht]
    · simp only [ht, if_false]
      have h : (a : ℚ) ≤ (b : ℚ) := by exact_mod_cast hab
      gcongr
  · intro hsum f hf
    unfold fetchFracs at hf
    rw [List.mem_map] at hf
    obtain ⟨dl, hdl, rfl⟩ := hf
    unfold fetchFrac
    by_cases ht : total = 0
    · simp [ht]
    · simp only [ht, if_false]
      have hpos : (0 : ℚ) < (total : ℚ) := by
        exact_mod_cast Nat.pos_of_ne_zero ht
      have hb := mem_partialSums_bounds hdl
      have hle : dl ≤ total :=
        le_trans (by simpa using hb.2) (le_trans (sum_filter_le_sum chunks) hsum)
      constructor
      · positivity
      · rw [div_le_one hpos]
        exact_mod_cast hle
  · intro ht
    unfold fetchFracs
    refine List.map_congr_left ?_
    intro dl _
    unfold fetchFrac
    simp [ht]
  · intro ht f hf
    unfold fetchFracs at hf
    rw [List.mem_map] at hf
    obtain ⟨dl, _, rfl⟩ := hf
    unfold fetchFrac
    simp [ht]

/-- Witness for C5: a 100-byte download arriving as chunks of 30, an empty
keep-alive chunk, 50 and 20 reports the fractions 3/10, 4/5 and 1, a
non-decreasing sequence inside `[0, 1]`. -/
theorem fetch_progress_monotone_bounded_witness :
    fetchFracs 100 [30, 0, 50, 20] = [3/10, 4/5, 1] ∧
    List.Chain' (· ≤ ·) (fetchFracs 100 [30, 0, 50, 20]) ∧
    (0 ≤ (1 : ℚ) ∧ (1 : ℚ) ≤ 1) := by
  have h := fetch_progress_monotone_bounded 100 [30, 0, 50, 20]
  have heq : fetchFracs 100 [30, 0, 50, 20] = [3/10, 4/5, 1] := by
    norm_num [fetchFracs, partialSums, fetchFrac]
  refine ⟨heq, h.1, ?_⟩
  have hm : (1 : ℚ) ∈ fetchFracs 100 [30, 0, 50, 20] := by
    rw [heq]; simp
  exact h.2.1 (by decide) 1 hm

/-! ## C6 — extractor line parsing -/

/-- Unfolding lemma: a line whose percentage token is `n` emits one
callback `(n/100, line.strip())`. -/
lemma extractEventsV1_cons_some {line : String} {rest : List String}
    {n : Nat} (hn : pctSearch line = some n) :
    extractEventsV1 (line :: rest) =
      ((n : ℚ) / 100, pyStrip line) :: extractEventsV1 rest := by
  unfold extractEventsV1
  rw [List.filterMap_cons, hn]
  rfl

/-- Unfolding lemma: a line without a percentage token emits nothing. -/
lemma extractEventsV1_cons_none {line : String} {rest : List String}
    (hn : pctSearch line = none) :
    extractEventsV1 (line :: rest) = extractEventsV1 rest := by
  unfold extractEventsV1
  rw [List.filterMap_cons, hn]
  rfl

/-- C6 counterexample: the claim says every callback fraction lies in
`[0, 1]`, but for a stdout line containing the token `200%` the code
computes `int("200") / 100.0 = 2.0` and invokes the callback with it: the
claim, as stated, is false at this input. -/
theorem extract_fraction_counterexample :
    pctSearch "200% extracting" = some 200 ∧
    extractEventsV1 ["200% extracting"] = [((2 : ℚ), "200% extracting")] ∧
    ¬ ((2 : ℚ) ≤ 1) := by
  refine ⟨rfl, ?_, by norm_num⟩
  rw [extractEventsV1_cons_some
        (show pctSearch "200% extracting" = some 200 from rfl),
    show pyStrip "200% extracting" = "200% extracting" from rfl]
  norm_num [extractEventsV1]

/-- C6 (amended): on each stdout line, `extract_with_7zr` invokes the
progress callback exactly when the line contains a percentage token, with
fraction `token/100` — a value in `[0, 1]` whenever the token is at most
100 — paired with the stripped line; a line without a token is skipped
without error and without a callback. -/
theorem extract_line_parsing (line : String) (rest : List String) :
    (∀ n, pctSearch line = some n →
      extractEventsV1 (line :: rest) =
        ((n : ℚ) / 100, pyStrip line) :: extractEventsV1 rest ∧
      (n ≤ 100 → 0 ≤ (n : ℚ) / 100 ∧ (n : ℚ) / 100 ≤ 1)) ∧
    (pctSearch line = none →
      extractEventsV1 (line :: rest) = extractEventsV1 rest) := by
  constructor
  · intro n hn
    refine ⟨extractEventsV1_cons_some hn, ?_⟩
    intro hle
    constructor
    · positivity
    · rw [div_le_one (by norm_num)]
      exact_mod_cast hle
  · exact fun hn => extractEventsV1_cons_none hn

/-- Witness for C6: the 7zr-style line `" 45%"` produces one callback with
fraction `45/100 ∈ [0, 1]` and the stripped text `"45%"`, while a line
with no token produces none. -/
theorem extract_line_parsing_witness :
    extractEventsV1 [" 45%"] = [((45 : ℚ) / 100, pyStrip " 45%")] ∧
    (0 ≤ (45 : ℚ) / 100 ∧ (45 : ℚ) / 100 ≤ 1) ∧
    extractEventsV1 ["Everything is Ok"] = [] := by
  have h := (extract_line_parsing " 45%" []).1 45 rfl
  have h2 := (extract_line_parsing "Everything is Ok" []).2 rfl
  refine ⟨?_, h.2 (by norm_num), ?_⟩
  · rw [h.1]
    rfl
  · rw [h2]
    rfl

/-! ## C7 — extractor exit handling -/

/-- C7 counterexample: the claim says the extraction failure carries both
the exit code and the captured standard-error output, but in
`Untitled-1.py` stderr is merged into stdout (`stderr=subprocess.STDOUT`)
and the raised error reads only `7zr failed (code N)`: for a run with exit
code 2 whose subprocess wrote `boom` to stderr, the carried error does not
contain that output. -/
theorem extract_exit_counterexample :
    extractResultV1 2 = Except.error "7zr failed (code 2)" ∧
    ¬ ("boom".data <:+: "7zr failed (code 2)".data) := by
  exact ⟨rfl, by decide⟩

/-- C7 (amended): both variants wait for the subprocess and fail exactly
when its exit code is non-zero; the `part_000` variant's error carries the
exit code and the captured stderr (both occur in the message), while the
`Untitled-1.py` variant's error carries the exit code only. -/
theorem extract_exit_handling (exitCode : Nat) (stderrOut : String) :
    (extractResultV1 exitCode = Except.ok () ↔ exitCode = 0) ∧
    (extractResultV2 exitCode stderrOut = Except.ok () ↔ exitCode = 0) ∧
    (exitCode ≠ 0 →
      extractResultV1 exitCode =
        Except.error ("7zr failed (code " ++ toString exitCode ++ ")") ∧
      extractResultV2 exitCode stderrOut =
        Except.error ("Extraction failed: 7zr failed (code " ++
          toString exitCode ++ "): " ++ stderrOut) ∧
      (toString exitCode).data <:+:
        ("Extraction failed: 7zr failed (code " ++ toString exitCode ++
          "): " ++ stderrOut).data ∧
      stderrOut.data <:+:
        ("Extraction failed: 7zr failed (code " ++ toString exitCode ++
          "): " ++ stderrOut).data) := by
  refine ⟨?_, ?_, ?_⟩
  · by_cases h : exitCode = 0 <;> simp [extractResultV1, h]
  · by_cases h : exitCode = 0 <;> simp [extractResultV2, h]
  · intro h
    refine ⟨by simp [extractResultV1, h], by simp [extractResultV2, h], ?_, ?_⟩
    · refine ⟨("Extraction failed: 7zr failed (code ").data,
        ("): " ++ stderrOut).data, ?_⟩
      simp [String.data_append]
    · refine ⟨("Extraction failed: 7zr failed (code " ++ toString exitCode ++
        "): ").data, [], ?_⟩
      simp [String.data_append]

/-- Witness for C7: exit code 0 succeeds in both variants; exit code 2 with
stderr `boom` fails in `part_000` with a message carrying `2` and `boom`. -/
theorem extract_exit_handling_witness :
    extractResultV1 0 = Except.ok () ∧
    extractResultV2 0 "" = Except.ok () ∧
    extractResultV2 2 "boom" =
      Except.error "Extraction failed: 7zr failed (code 2): boom" := by
  refine ⟨(extract_exit_handling 0 "").1.mpr rfl,
    (extract_exit_handling 0 "").2.1.mpr rfl, ?_⟩
  have h := ((extract_exit_handling 2 "boom").2.2 (by decide)).2.1
  rw [h]
  rfl

/-! ## C10 — the two variants' extractors agree -/

/-- C10: for every fixed sequence of subprocess stdout lines, the two
variants' `extract_with_7zr` loops invoke the progress callback with
identical sequences of (fraction, stripped-line) pairs, and every emitted
pair is `(token/100, line.strip())` for a line whose percentage token is
`token`. -/
theorem extract_variants_equivalent (lines : List String) :
    extractEventsV1 lines = extractEventsV2 lines ∧
    ∀ e ∈ extractEventsV1 lines, ∃ line ∈ lines, ∃ n,
      pctSearch line = some n ∧ e = ((n : ℚ) / 100, pyStrip line) := by
  refine ⟨rfl, ?_⟩
  intro e he
  unfold extractEventsV1 at he
  rw [List.mem_filterMap] at he
  obtain ⟨line, hline, hmap⟩ := he
  rw [Option.map_eq_some'] at hmap
  obtain ⟨n, hn, rfl⟩ := hmap
  exact ⟨line, hline, n, hn, rfl⟩

/-- Witness for C10 on a concrete stdout transcript. -/
theorem extract_variants_equivalent_witness :
    extractEventsV1 [" 45%", "Everything is Ok", "100%"] =
      extractEventsV2 [" 45%", "Everything is Ok", "100%"] :=
  (extract_variants_equivalent [" 45%", "Everything is Ok", "100%"]).1

/-! ## Lookup lemmas for the merge model -/

lemma lookupEntry_cons (e : String × FsNode) (rest : Entries) (m : String) :
    lookupEntry (e :: rest) m =
      if e.1 = m then some e.2 else lookupEntry rest m := rfl

lemma lookupEntry_filter_ne (t : Entries) (name m : String) (hm : m ≠ name) :
    lookupEntry (t.filter (fun e => e.1 ≠ name)) m = lookupEntry t m := by
  induction t with
  | nil => rfl
  | cons e rest ih =>
    rw [List.filter_cons]
    by_cases he : e.1 = name
    · have h1 : ¬ e.1 = m := fun hh => hm (hh ▸ he)
      simp only [he, ne_eq, not_true_eq_false, decide_False, Bool.false_eq_true,
        if_false]
      rw [ih, lookupEntry_cons]
      simp [h1]
    · simp only [ne_eq, he, not_false_eq_true, decide_True, if_true]
      rw [lookupEntry_cons, lookupEntry_cons]
      by_cases hem : e.1 = m
      · simp [hem]
      · simp only [hem, if_false]
        simpa using ih

lemma lookupEntry_filter_self (t : Entries) (name : String) :
    lookupEntry (t.filter (fun e => e.1 ≠ name)) name = none := by
  induction t with
  | nil => rfl
  | cons e rest ih =>
    rw [List.filter_cons]
    by_cases he : e.1 = name
    · simpa [he] using ih
    · simp only [ne_eq, he, not_false_eq_true, decide_True, if_true]
      rw [lookupEntry_cons]
      simp only [he, if_false]
      simpa using ih

lemma lookupEntry_append (a b : Entries) (m : String) :
    lookupEntry (a ++ b) m =
      match lookupEntry a m with
      | some x => some x
      | none => lookupEntry b m := by
  induction a with
  | nil => rfl
  | cons e rest ih =>
    rw [List.cons_append, lookupEntry_cons, lookupEntry_cons]
    by_cases he : e.1 = m
    · simp [he]
    · simp [he, ih]

lemma lookupEntry_moveInto (t : Entries) (name m : String) (node : FsNode) :
    lookupEntry (moveInto t name node) m =
      if m = name then some node else lookupEntry t m := by
  unfold moveInto
  rw [lookupEntry_append]
  by_cases hm : m = name
  · rw [hm, lookupEntry_filter_self]
    simp [lookupEntry_cons]
  · rw [lookupEntry_filter_ne t name m hm]
    have h1 : ¬ name = m := fun hh => hm hh.symm
    cases h : lookupEntry t m with
    | none => simp [hm, lookupEntry_cons, h1, lookupEntry]
    | some x => simp [hm]

lemma lookupEntry_eq_none_of_not_mem (es : Entries) (m : String)
    (h : m ∉ es.map (fun e => e.1)) : lookupEntry es m = none := by
  induction es with
  | nil => rfl
  | cons e rest ih =>
    rw [List.map_cons, List.mem_cons] at h
    push_neg at h
    rw [lookupEntry_cons]
    have h1 : ¬ e.1 = m := fun hh => h.1 hh.symm
    simp only [h1, if_false]
    exact ih h.2

lemma lookupEntry_merge_foldl (children : List (String × FsNode))
    (target : Entries) (m : String)
    (h : (children.map (fun c => c.1)).Nodup) :
    lookupEntry (children.foldl (fun t c => moveInto t c.1 c.2) target) m =
      match lookupEntry children m with
      | some x => some x
      | none => lookupEntry target m := by
  induction children generalizing target with
  | nil => rfl
  | cons c cs ih =>
    rw [List.map_cons, List.nodup_cons] at h
    rw [List.foldl_cons, ih _ h.2, lookupEntry_cons]
    by_cases hm : m = c.1
    · have hnone : lookupEntry cs m = none :=
        lookupEntry_eq_none_of_not_mem cs m (hm ▸ h.1)
      rw [hnone, lookupEntry_moveInto]
      simp [hm]
    · have h1 : ¬ c.1 = m := fun hh => hm hh.symm
      rw [lookupEntry_moveInto]
      cases hcs : lookupEntry cs m with
      | none => simp [hcs, hm, h1]
      | some x => simp [hcs, h1]


/-! ## C3 and C4 — the merge step -/

/-- C3: whenever the extracted output is not exactly one top-level
directory entry (empty, two or more entries, or a single top-level file),
the merge step raises `UnexpectedArchiveLayout` before its loop runs: no
move is performed and the game folder is unchanged. -/
theorem merge_rejects_bad_layout (contents target : Entries)
    (h : isSingleTopDir contents = false) :
    (mergeRun contents target).result =
      Except.error MergeError.unexpectedArchiveLayout ∧
    (mergeRun contents target).moves = [] ∧
    (mergeRun contents target).target = target := by
  match contents with
  | [] => exact ⟨rfl, rfl, rfl⟩
  | [(n, FsNode.file c)] => exact ⟨rfl, rfl, rfl⟩
  | [(n, FsNode.dir ch)] => simp [isSingleTopDir] at h
  | (a, FsNode.file c) :: f :: rest => exact ⟨rfl, rfl, rfl⟩
  | (a, FsNode.dir c) :: f :: rest => exact ⟨rfl, rfl, rfl⟩

/-- Witness for C3: two top-level files are rejected and the target keeps
exactly its prior contents. -/
theorem merge_rejects_bad_layout_witness :
    (mergeRun [("x", FsNode.file [1]), ("y", FsNode.file [2])]
      [("gta_sa.exe", FsNode.file [0])]).result =
        Except.error MergeError.unexpectedArchiveLayout ∧
    (mergeRun [("x", FsNode.file [1]), ("y", FsNode.file [2])]
      [("gta_sa.exe", FsNode.file [0])]).moves = [] ∧
    (mergeRun [("x", FsNode.file [1]), ("y", FsNode.file [2])]
      [("gta_sa.exe", FsNode.file [0])]).target =
        [("gta_sa.exe", FsNode.file [0])] :=
  merge_rejects_bad_layout _ _ rfl

/-- C4 counterexample: for the root-wrapped tree with children `{a, b}`
and a target already containing `a` *and another entry* `c`, the merge
succeeds but the resulting target contains `{c, a, b}`, not exactly
`{a, b}`: the claim, as stated over every target containing `a`, is false
at this input (the code never removes unrelated pre-existing entries). -/
theorem merge_replace_counterexample :
    (mergeRun [("V2-Snapshot1.1-GTAPE", FsNode.dir
        [("a", FsNode.file [1]), ("b", FsNode.file [2])])]
      [("a", FsNode.file [0]), ("c", FsNode.file [3])]).result =
        Except.ok () ∧
    (mergeRun [("V2-Snapshot1.1-GTAPE", FsNode.dir
        [("a", FsNode.file [1]), ("b", FsNode.file [2])])]
      [("a", FsNode.file [0]), ("c", FsNode.file [3])]).target.map
        (fun e => e.1) = ["c", "a", "b"] ∧
    ¬ (["c", "a", "b"] : List String).Perm ["a", "b"] := by
  refine ⟨rfl, rfl, by decide⟩

/-- C4 (amended): merging a root-wrapped tree moves each child into the
target in listing order; afterwards, looking up any name that is a child's
name yields exactly the source child (the pre-existing entry, file or
directory, was removed before the move, so the result is byte-for-byte the
source), and any other name still resolves as it did before the merge.  In
particular a target whose sole entry was `a` ends with exactly
`{a(new), b}`. -/
theorem merge_rootwrapped_replaces (w : String) (children target : Entries)
    (m : String) (h : (children.map (fun c => c.1)).Nodup) :
    (mergeRun [(w, FsNode.dir children)] target).result = Except.ok () ∧
    (mergeRun [(w, FsNode.dir children)] target).moves =
      children.map (fun c => c.1) ∧
    lookupEntry (mergeRun [(w, FsNode.dir children)] target).target m =
      (match lookupEntry children m with
       | some x => some x
       | none => lookupEntry target m) :=
  ⟨rfl, rfl, lookupEntry_merge_foldl children target m h⟩

/-- Witness for C4 (amended): children `{a, b}` over a target `{a}`: the
new `a` is the source file `[9, 9]` (the old `[0]` is gone), `b` arrives,
and an absent name stays absent. -/
theorem merge_rootwrapped_replaces_witness :
    lookupEntry (mergeRun [("root", FsNode.dir
        [("a", FsNode.file [9, 9]), ("b", FsNode.file [2])])]
      [("a", FsNode.file [0])]).target "a" = some (FsNode.file [9, 9]) ∧
    lookupEntry (mergeRun [("root", FsNode.dir
        [("a", FsNode.file [9, 9]), ("b", FsNode.file [2])])]
      [("a", FsNode.file [0])]).target "b" = some (FsNode.file [2]) ∧
    lookupEntry (mergeRun [("root", FsNode.dir
        [("a", FsNode.file [9, 9]), ("b", FsNode.file [2])])]
      [("a", FsNode.file [0])]).target "zz" = none := by
  have ha := (merge_rootwrapped_replaces "root"
    [("a", FsNode.file [9, 9]), ("b", FsNode.file [2])]
    [("a", FsNode.file [0])] "a" (by decide)).2.2
  have hb := (merge_rootwrapped_replaces "root"
    [("a", FsNode.file [9, 9]), ("b", FsNode.file [2])]
    [("a", FsNode.file [0])] "b" (by decide)).2.2
  have hz := (merge_rootwrapped_replaces "root"
    [("a", FsNode.file [9, 9]), ("b", FsNode.file [2])]
    [("a", FsNode.file [0])] "zz" (by decide)).2.2
  exact ⟨ha.trans rfl, hb.trans rfl, hz.trans rfl⟩

/-! ## C1 — worker phase sequence and cleanup -/

/-- C1: in any install attempt whose preconditions pass and whose download
succeeds, if the extraction subprocess exits non-zero then both variants'
workers assign exactly the phase sequence
`downloading → installing → error` (the code's names for the spec's
`downloading → extracting → failed`); the scratch archive exists when the
`finally` block starts, and on every exit path of either worker — success
or failure — the cleanup pass deletes it, so it no longer exists
afterwards. -/
theorem worker_phase_sequence_and_cleanup (env : WorkerEnv)
    (partialFile : Bool) (hdeps : env.depsOk = true)
    (hpath : env.gamePath ≠ "") (hdl : env.downloadOk = true)
    (hexit : env.extractExit ≠ 0) :
    (workerV1 env partialFile).phases =
      [Phase.downloading, Phase.installing, Phase.error] ∧
    (workerV2 env partialFile).phases =
      [Phase.downloading, Phase.installing, Phase.error] ∧
    (workerBodyV1 env partialFile).tempExists = true ∧
    (workerBodyV2 env partialFile).tempExists = true ∧
    (∀ (envA : WorkerEnv) (pf : Bool),
      (workerV1 envA pf).tempExists = false ∧
      (workerV2 envA pf).tempExists = false) := by
  refine ⟨?_, ?_, ?_, ?_, fun envA pf => ⟨rfl, rfl⟩⟩
  · simp [workerV1, workerBodyV1, hdeps, hpath, hdl, hexit]
  · simp [workerV2, workerBodyV2, hdeps, hpath, hdl, hexit]
  · simp [workerBodyV1, hdeps, hpath, hdl, hexit]
  · simp [workerBodyV2, hdeps, hpath, hdl, hexit]

/-- Witness for C1 at a concrete environment: preconditions met, download
succeeds, `7zr` exits with code 2. -/
theorem worker_phase_sequence_and_cleanup_witness :
    (workerV1 ⟨true, "C:/Games/GTA", true, 2, []⟩ false).phases =
      [Phase.downloading, Phase.installing, Phase.error] ∧
    (workerV2 ⟨true, "C:/Games/GTA", true, 2, []⟩ false).phases =
      [Phase.downloading, Phase.installing, Phase.error] ∧
    (workerV1 ⟨true, "C:/Games/GTA", true, 2, []⟩ false).tempExists = false ∧
    (workerV2 ⟨true, "C:/Games/GTA", true, 2, []⟩ false).tempExists = false := by
  have h := worker_phase_sequence_and_cleanup
    ⟨true, "C:/Games/GTA", true, 2, []⟩ false rfl (by decide) rfl (by decide)
  exact ⟨h.1, h.2.1, (h.2.2.2.2 _ false).1, (h.2.2.2.2 _ false).2⟩

end Eagle
